import Mathlib

/-!
Verification development for the LiDAR instance-extraction pipeline
(`clustering_final` scripts).  The definitions below are shallow embeddings
of the Python source functions, translated function by function:

* `python_instance_enhanced.py` / `python_instance_enhanced_fixed1.py` —
  voxel downsampling, percentile height filter, statistical outlier filter,
  footprint construction (`create_footprint_building`, `create_concave_hull`,
  `simplify_polygon`), geometry metrics and the greedy overlap filter;
* `python_mast_enhanced.py` — `remove_duplicate_masts`,
  `calculate_mast_quality` and the filtering loop of `process_mast_chunk`;
* `python_wire_enhanced.py` — the wire variant of the outlier filter.

Numeric modelling: Python floats are idealised as exact rationals wherever
the computation stays inside field arithmetic; square roots (Euclidean
distances, standard deviations) are modelled either over `ℝ` with
`Real.sqrt`, or — when the source only ever compares a square root against
a nonnegative bound — by the equivalent comparison of squares over `ℚ`
(`Real.sqrt d < c ↔ d < c ^ 2` for `0 ≤ c`, both sides nonnegative).
Each such translation is noted next to the definition it concerns.
-/

open scoped List

/-- A 2-D point / polygon vertex, as produced by the scripts (UTM metres). -/
abbrev Q2 : Type := ℚ × ℚ

/-- A 3-D LiDAR point with rational coordinates. -/
structure Point3 where
  x : ℚ
  y : ℚ
  z : ℚ
deriving DecidableEq, Repr

/-- Squared Euclidean distance of two 2-D points.  The Python sources compute
`math.sqrt` of this quantity and compare it with a nonnegative constant; the
embeddings compare the square against the squared constant instead, which is
equivalent. -/
def sqDist2 (p q : Q2) : ℚ :=
  (p.1 - q.1) ^ 2 + (p.2 - q.2) ^ 2

/-! ### Density Reducer (voxel grid downsampling)

Source: `python_instance_enhanced.py` lines 84-88 (voxel 0.25 m),
`python_instance_enhanced_fixed1.py` lines 112-116 (0.3 m),
`python_wire_enhanced.py` lines 131-135 (0.2 m):
`voxel_indices = np.floor(points_3d / voxel_size).astype(int)` followed by
`np.unique(voxel_indices, axis=0, return_index=True)` and indexing.
`np.unique(..., axis=0, return_index=True)` returns the unique rows in
lexicographically sorted order together with the index of the FIRST
occurrence of each row, so the surviving point of a voxel is the first
point of that voxel in input order, and the output is listed in sorted
voxel-key order. -/

/-- Integer voxel key of a point: componentwise `floor(coordinate / voxel)`. -/
def voxelKey (v : ℚ) (p : Point3) : ℤ × ℤ × ℤ :=
  (⌊p.x / v⌋, ⌊p.y / v⌋, ⌊p.z / v⌋)

/-- Lexicographic order on integer voxel keys (row order used by
`np.unique(..., axis=0)`). -/
def keyLe (a b : ℤ × ℤ × ℤ) : Prop :=
  a.1 < b.1 ∨ (a.1 = b.1 ∧ (a.2.1 < b.2.1 ∨ (a.2.1 = b.2.1 ∧ a.2.2 ≤ b.2.2)))

instance : DecidableRel keyLe := fun a b => by
  unfold keyLe; infer_instance

/-- Voxel-grid downsampling: one surviving point per occupied voxel, namely
the first point of the voxel in input order, results listed by sorted voxel
key (the `np.unique` contract described above). -/
def voxelDownsample (v : ℚ) (pts : List Point3) : List Point3 :=
  let keys := pts.map (voxelKey v)
  let uniq := List.insertionSort keyLe keys.dedup
  uniq.filterMap (fun k => pts.find? (fun p => decide (voxelKey v p = k)))

/-! ### Ground/Height Filter (percentile Z threshold)

Source: `python_instance_enhanced.py` lines 92-95 (percentile 25),
`python_instance_enhanced_fixed1.py` lines 121-124 (percentile 20),
`python_wire_enhanced.py` lines 140-143 (percentile 10):
`height_threshold = np.percentile(z_values, p)` then
`height_mask = z_values > height_threshold`. -/

/-- The p-th percentile of a list, with numpy's default linear
interpolation: sort ascending, take the virtual index `p * (n-1) / 100`
and interpolate linearly between the two neighbouring entries. -/
def percentileQ (p : ℚ) (xs : List ℚ) : ℚ :=
  let s := List.insertionSort (· ≤ ·) xs
  let hq : ℚ := p * ((s.length : ℚ) - 1) / 100
  let lo : ℕ := (⌊hq⌋).toNat
  let x0 := s.getD lo 0
  let x1 := s.getD (lo + 1) x0
  x0 + (hq - (⌊hq⌋ : ℚ)) * (x1 - x0)

/-- Height filter: keep exactly the points whose Z is strictly greater than
the p-th percentile of all Z values (`z_values > height_threshold`). -/
def heightFilter (p : ℚ) (pts : List Point3) : List Point3 :=
  let thr := percentileQ p (pts.map Point3.z)
  pts.filter (fun q => decide (thr < q.z))

/-! ### Mast deduplication and quality scoring

Source: `python_mast_enhanced.py`.  A mast candidate is a centroid record
with a point count; `MAST_FILTERS` fixes the constants used below
(min_points 100, max_points 3000, relative height 5-50 m, density 10-200
points per metre, minimum quality score 0.6, proximity radius 1.5 m). -/

/-- One mast candidate as read from the centroids JSON. -/
structure MastData where
  object_id : ℕ
  point_count : ℕ
  centroid_x : ℚ
  centroid_y : ℚ
  centroid_z : ℚ
deriving DecidableEq, Repr

/-- Squared horizontal distance between two mast centroids.  The source
compares `np.sqrt` of this against the 1.5 m proximity radius; the embedding
compares the square against `(3/2)^2 = 9/4`. -/
def mastDistSq (a b : MastData) : ℚ :=
  (a.centroid_x - b.centroid_x) ^ 2 + (a.centroid_y - b.centroid_y) ^ 2

/-- Sort key of `sorted(masts, key=lambda m: m['point_count'], reverse=True)`:
descending point count. -/
def byDescPoints (a b : MastData) : Prop :=
  b.point_count ≤ a.point_count

instance : DecidableRel byDescPoints := fun a b => by
  unfold byDescPoints; infer_instance

/-- One step of the greedy deduplication loop (`remove_duplicate_masts`
lines 74-97): the accumulator holds the kept masts and the removed count; a
candidate is a duplicate iff its centroid lies strictly within the proximity
radius of some already-kept mast. -/
def mastDedupStep (radius2 : ℚ) (acc : List MastData × ℕ) (m : MastData) :
    List MastData × ℕ :=
  if acc.1.any (fun k => decide (mastDistSq m k < radius2)) then
    (acc.1, acc.2 + 1)
  else
    (acc.1 ++ [m], acc.2)

/-- `remove_duplicate_masts` (lines 51-104): lists of length ≤ 1 are
returned unchanged; otherwise candidates are processed in descending
point-count order and greedily kept unless within the 1.5 m proximity
radius of an already-kept mast.  Returns the kept list and removed count. -/
def remove_duplicate_masts (masts : List MastData) : List MastData × ℕ :=
  if masts.length ≤ 1 then (masts, 0)
  else (List.insertionSort byDescPoints masts).foldl (mastDedupStep (9 / 4)) ([], 0)

/-- Point-count validity factor of `calculate_mast_quality` (lines 123-129):
1.0 inside `[min_points, max_points]`, 0.0 outside. -/
def factor_point_count (m : MastData) : ℚ :=
  if 100 ≤ m.point_count ∧ m.point_count ≤ 3000 then 1 else 0

/-- Relative height of a mast above the chunk's minimum Z
(`calculate_mast_quality` lines 114-116). -/
def mastRelativeHeight (m : MastData) (minZ : ℚ) : ℚ :=
  m.centroid_z - minZ

/-- Height validity factor (lines 131-135): 1.0 for a relative height in
[5, 50] m, else 0.5. -/
def factor_height (m : MastData) (minZ : ℚ) : ℚ :=
  if 5 ≤ mastRelativeHeight m minZ ∧ mastRelativeHeight m minZ ≤ 50 then 1
  else 1 / 2

/-- Point density: `point_count / max(relative_height, 1.0)` (line 119). -/
def mastDensity (m : MastData) (minZ : ℚ) : ℚ :=
  (m.point_count : ℚ) / max (mastRelativeHeight m minZ) 1

/-- Density validity factor (lines 137-141): 1.0 for a density in [10, 200]
points per metre, else 0.7. -/
def factor_density (m : MastData) (minZ : ℚ) : ℚ :=
  if 10 ≤ mastDensity m minZ ∧ mastDensity m minZ ≤ 200 then 1 else 7 / 10

/-- `calculate_mast_quality` (lines 143-145): the weighted sum of the three
validity factors with weights point count 0.5, height 0.3, density 0.2. -/
def calculate_mast_quality (m : MastData) (minZ : ℚ) : ℚ :=
  (1 / 2) * factor_point_count m + (3 / 10) * factor_height m minZ
    + (1 / 5) * factor_density m minZ

/-- The per-mast filter of `process_mast_chunk` (lines 188-216): reject if
the point count is below 100 or above 3000, or if the quality score is
strictly below 0.6; otherwise keep. -/
def mastPassesFilters (minZ : ℚ) (m : MastData) : Bool :=
  decide (100 ≤ m.point_count) && decide (m.point_count ≤ 3000)
    && decide (¬ calculate_mast_quality m minZ < 3 / 5)

/-- The clean mast set produced by `process_mast_chunk`: the per-mast
filters followed by the proximity deduplication pass (line 221). -/
def process_mast_chunk (minZ : ℚ) (masts : List MastData) : List MastData :=
  (remove_duplicate_masts (masts.filter (mastPassesFilters minZ))).1

/-! ### Instance Filter: greedy overlap check (fixed building variant)

Source: `python_instance_enhanced_fixed1.py`, `has_overlap_with_existing`
(lines 640-680) and the acceptance loop (lines 254-258, 293-294).  A
candidate polygon is compared against every already-accepted polygon: if
the axis-aligned bounding boxes do not overlap the pair is skipped
entirely; only if they overlap is the distance between the bounding-box
centres compared against the 8 m minimum distance. -/

/-- Minimum X coordinate of a vertex list (Python `min(new_x)`); the loop
only ever applies it to nonempty polygons, `0` is a junk value for `[]`. -/
def bbMinX : List Q2 → ℚ
  | [] => 0
  | p :: r => r.foldl (fun m q => min m q.1) p.1

/-- Maximum X coordinate of a vertex list. -/
def bbMaxX : List Q2 → ℚ
  | [] => 0
  | p :: r => r.foldl (fun m q => max m q.1) p.1

/-- Minimum Y coordinate of a vertex list. -/
def bbMinY : List Q2 → ℚ
  | [] => 0
  | p :: r => r.foldl (fun m q => min m q.2) p.2

/-- Maximum Y coordinate of a vertex list. -/
def bbMaxY : List Q2 → ℚ
  | [] => 0
  | p :: r => r.foldl (fun m q => max m q.2) p.2

/-- The early-skip test of `has_overlap_with_existing` (lines 661-663): the
bounding boxes of the two polygons do not overlap. -/
def bboxDisjoint (a b : List Q2) : Bool :=
  decide (bbMaxX a < bbMinX b) || decide (bbMinX a > bbMaxX b)
    || decide (bbMaxY a < bbMinY b) || decide (bbMinY a > bbMaxY b)

/-- Centre of the axis-aligned bounding box of a polygon (lines 666-669). -/
def bbCenter (a : List Q2) : Q2 :=
  ((bbMinX a + bbMaxX a) / 2, (bbMinY a + bbMaxY a) / 2)

/-- Squared distance between the bounding-box centres of two polygons.  The
source takes `math.sqrt` and compares against 8 m; the embedding compares
the square against 64. -/
def centerDistSq (a b : List Q2) : ℚ :=
  sqDist2 (bbCenter a) (bbCenter b)

/-- `has_overlap_with_existing` (lines 640-680) with squared distances:
true iff some existing polygon has an overlapping bounding box AND a
bounding-box centre strictly within the minimum distance (whose square is
`minDistSq`). -/
def has_overlap_with_existing (newC : List Q2) (existing : List (List Q2))
    (minDistSq : ℚ) : Bool :=
  existing.any (fun ex =>
    if bboxDisjoint newC ex then false
    else decide (centerDistSq newC ex < minDistSq))

/-- One iteration of the greedy acceptance loop: the candidate is appended
to the accepted list iff `has_overlap_with_existing` is false against the
accepted list so far; 64 = 8^2 for the fixed variant's `min_distance=8.0`. -/
def overlapStep (acc : List (List Q2)) (c : List Q2) : List (List Q2) :=
  if has_overlap_with_existing c acc 64 then acc else acc ++ [c]

/-- The greedy acceptance loop over candidate polygons that already passed
the point-count, density, size and aspect-ratio filters (lines 254-258,
293-294). -/
def buildingOverlapFilter (cands : List (List Q2)) : List (List Q2) :=
  cands.foldl overlapStep []

/-! ### Point Loader temporary-file effects

Source: `python_instance_enhanced.py` lines 37-80 and 249-251.  The run
writes the PDAL pipeline JSON (line 55) and the external tool writes the
points CSV; `os.remove(temp_points)` and `os.remove(pipeline_file)` are
executed only at lines 250-251, after the output GeoJSON has been saved.
The early `return 0` exits (PDAL failure line 64, load failure line 74,
fewer than 100 points line 80, fewer than 20 filtered points line 104,
fewer than 500 clean points line 123, zero clusters line 144, zero accepted
buildings line 220) all skip the cleanup.  The environment below records
the outcome of each guard of that control flow; the effects record which
return value is produced and whether each temporary file was deleted. -/

/-- Outcomes of the guards along `extract_instance_buildings_enhanced`. -/
structure LoaderEnv where
  pdalOk : Bool
  parseOk : Bool
  nPoints : ℕ
  nFiltered2d : ℕ
  nClean : ℕ
  nClusters : ℕ
  nAccepted : ℕ
deriving DecidableEq, Repr

/-- Observable file effects of one run: the returned count and whether the
two temporary files were removed before returning. -/
structure RunEffects where
  ret : ℕ
  tempPointsDeleted : Bool
  pipelineFileDeleted : Bool
deriving DecidableEq, Repr

/-- Control-flow model of `extract_instance_buildings_enhanced` restricted
to its exit paths and temporary-file cleanup (lines 59-253). -/
def extract_run_effects (e : LoaderEnv) : RunEffects :=
  if ¬ e.pdalOk then ⟨0, false, false⟩
  else if ¬ e.parseOk then ⟨0, false, false⟩
  else if e.nPoints < 100 then ⟨0, false, false⟩
  else if e.nFiltered2d < 20 then ⟨0, false, false⟩
  else if e.nClean < 500 then ⟨0, false, false⟩
  else if e.nClusters = 0 then ⟨0, false, false⟩
  else if e.nAccepted = 0 then ⟨0, false, false⟩
  else ⟨e.nAccepted, true, true⟩

/-! ### Geometry metrics

Source: `python_instance_enhanced_fixed1.py` lines 588-638 and 400-411
(the same function bodies appear in `python_instance_enhanced.py`
lines 434-484). -/

/-- `calculate_polygon_area` (lines 588-599): 0 for fewer than 4 entries,
else the shoelace formula over the vertices with the duplicated closing
vertex dropped.  The Python sum ranges over `i in range(-1, len(x)-1)`
with wrap-around indexing, i.e. over all cyclically consecutive pairs;
the embedding pairs `v` with `v.rotate 1`. -/
def calculate_polygon_area (coords : List Q2) : ℚ :=
  if coords.length < 4 then 0
  else
    let v := coords.dropLast
    (1 / 2) * |((v.zip (v.rotate 1)).map (fun pq => pq.1.1 * pq.2.2 - pq.2.1 * pq.1.2)).sum|

/-- `calculate_polygon_perimeter` (lines 601-611): sum of consecutive-vertex
Euclidean distances. -/
noncomputable def calculate_polygon_perimeter (coords : List Q2) : ℝ :=
  ((coords.zip coords.tail).map (fun pq => Real.sqrt ((sqDist2 pq.1 pq.2 : ℚ) : ℝ))).sum

/-- `calculate_aspect_ratio` (lines 613-638): returns 1 (not 0) for fewer
than 4 entries; otherwise sorts the consecutive-edge lengths ascending and,
when at least 4 edges exist and the shortest is positive, returns
`max(h/w, w/h)` with `w` the shortest and `h` the third-shortest edge;
all remaining branches return 1. -/
noncomputable def calculate_aspect_ratio (coords : List Q2) : ℝ :=
  if coords.length < 4 then 1
  else
    let edges := (coords.zip coords.tail).map
      (fun pq => Real.sqrt ((sqDist2 pq.1 pq.2 : ℚ) : ℝ))
    let sorted := List.insertionSort (· ≤ ·) edges
    if 4 ≤ sorted.length then
      let w := sorted.getD 0 0
      let h := sorted.getD 2 0
      if 0 < w then max (h / w) (w / h) else 1
    else 1

/-- `calculate_compactness` (lines 400-411): `4π·area / perimeter²` when
the perimeter is positive, else 0. -/
noncomputable def calculate_compactness (area perimeter : ℝ) : ℝ :=
  if 0 < perimeter then 4 * Real.pi * area / perimeter ^ 2 else 0

/-! ### Outlier Filter (statistical k-NN mean-distance filter)

Source: `python_instance_enhanced.py` lines 106-117 (k = min(10, n-1),
multiplier 1.2) and `python_wire_enhanced.py` lines 154-165
(k = min(8, n-1), multiplier 2.5).  `tree.query(points_2d, k=k+1)` yields,
for each point, its k+1 smallest distances to points of the set (self
included); `distances[:, 1:]` drops the smallest column, so each point's
statistic is the mean of the k smallest distances to the other points.
`np.std` is the population standard deviation.  Distances and the standard
deviation involve square roots, so this stage is modelled over `ℝ`. -/

/-- A 2-D point with real coordinates (outlier-filter stage). -/
abbrev R2 : Type := ℝ × ℝ

/-- Euclidean distance of two real 2-D points. -/
noncomputable def distR (p q : R2) : ℝ :=
  Real.sqrt ((p.1 - q.1) ^ 2 + (p.2 - q.2) ^ 2)

/-- Arithmetic mean of a list of reals (`np.mean`; the sources only apply
it to nonempty lists, and Lean's `x / 0 = 0` covers the empty case). -/
noncomputable def meanR (l : List ℝ) : ℝ :=
  l.sum / l.length

/-- Mean distance of `p` to its k nearest neighbours within `pts`
(`distances[:, 1:].mean(axis=1)`): sort the distances from `p` to every
point of `pts` (self included), drop the smallest, average the next k. -/
noncomputable def knnMeanDist (pts : List R2) (k : ℕ) (p : R2) : ℝ :=
  meanR (((List.insertionSort (· ≤ ·) (pts.map (distR p))).drop 1).take k)

/-- Population standard deviation of a list (`np.std`). -/
noncomputable def stdR (l : List ℝ) : ℝ :=
  Real.sqrt (meanR (l.map (fun d => (d - meanR l) ^ 2)))

/-- The outlier threshold `mean_dist + f * std_dist` of the per-point mean
k-NN distances. -/
noncomputable def outlierThreshold (pts : List R2) (k : ℕ) (f : ℝ) : ℝ :=
  meanR (pts.map (knnMeanDist pts k)) + f * stdR (pts.map (knnMeanDist pts k))

/-- The inlier mask applied to the point set:
`inlier_mask = mean_distances < outlier_threshold`, i.e. a point is kept
iff its mean k-NN distance is strictly below the threshold. -/
noncomputable def outlierFilterStage (pts : List R2) (k : ℕ) (f : ℝ) : List R2 :=
  pts.filter (fun p => decide (knnMeanDist pts k p < outlierThreshold pts k f))

/-- The building-script instantiation (`python_instance_enhanced.py`
lines 106-117): `k_neighbors = min(10, len(points_2d) - 1)` and the tight
multiplier 1.2. -/
noncomputable def buildingOutlierRemoval (pts : List R2) : List R2 :=
  outlierFilterStage pts (min 10 (pts.length - 1)) (6 / 5)

/-- The wire-script instantiation (`python_wire_enhanced.py` lines
154-165): `k_neighbors = min(8, len(points_2d) - 1)` and the conservative
multiplier 2.5. -/
noncomputable def wireOutlierRemoval (pts : List R2) : List R2 :=
  outlierFilterStage pts (min 8 (pts.length - 1)) (5 / 2)

/-! ### Footprint Builder

Source: `python_instance_enhanced.py` lines 259-432
(`create_footprint_building`, `create_concave_hull`, `simplify_polygon`,
`point_to_line_distance`, `create_oriented_bbox_with_cuts`).

`scipy.spatial.ConvexHull` is modelled by an Andrew monotone-chain
construction over the distinct input points; scipy raises `QhullError` on
degenerate input (fewer than 3 distinct points, or all points collinear),
which the model renders as `none` exactly when the chain yields fewer than
3 hull vertices.  Duplicate input points are deduplicated first, which
does not change the hull of the point set. -/

/-- 2-D cross product of `oa` and `ob` (orientation test). -/
def cross2 (o a b : Q2) : ℚ :=
  (a.1 - o.1) * (b.2 - o.2) - (a.2 - o.2) * (b.1 - o.1)

/-- Pop the chain (stored in reverse, most recent vertex first) while the
last two chain vertices and the incoming point do not make a strict right
turn for the lower chain (cross product ≤ 0). -/
def popChain (p : Q2) : List Q2 → List Q2
  | b :: a :: rest =>
      if cross2 a b p ≤ 0 then popChain p (a :: rest) else b :: a :: rest
  | l => l

/-- Process the input points one by one, maintaining the reversed chain. -/
def chainAux (acc : List Q2) : List Q2 → List Q2
  | [] => acc
  | p :: rest => chainAux (p :: popChain p acc) rest

/-- One half (lower or upper) of the monotone-chain hull of `l`. -/
def buildChain (l : List Q2) : List Q2 :=
  (chainAux [] l).reverse

/-- Lexicographic order on 2-D points used to sort input points for the
monotone chain. -/
def lexQ2 (a b : Q2) : Prop :=
  a.1 < b.1 ∨ (a.1 = b.1 ∧ a.2 ≤ b.2)

instance : DecidableRel lexQ2 := fun a b => by
  unfold lexQ2; infer_instance

/-- Convex hull model: the hull's vertex cycle (without a closing
duplicate), or `none` on degenerate input where `scipy.spatial.ConvexHull`
raises (fewer than 3 hull vertices, e.g. all points collinear). -/
def convexHullPoly (pts : List Q2) : Option (List Q2) :=
  let sorted := List.insertionSort lexQ2 pts.dedup
  let hull := (buildChain sorted).dropLast ++ (buildChain sorted.reverse).dropLast
  if 3 ≤ hull.length then some hull else none

/-- Close a vertex list by appending the first vertex when it differs from
the last (`if len(...) > 0 and coords[0] != coords[-1]: append(coords[0])`,
used at `python_instance_enhanced.py` lines 287-288 and 390-391). -/
def closeRing (l : List Q2) : List Q2 :=
  match l.head? with
  | none => l
  | some a => if l.getLast? = some a then l else l ++ [a]

/-- Close a vertex list by unconditionally appending the first vertex
(`if len(hull_coords) > 0: hull_coords.append(hull_coords[0])`, used at
lines 349-350 and 426-427). -/
def closeAlways (l : List Q2) : List Q2 :=
  match l.head? with
  | none => l
  | some a => l ++ [a]

/-- `create_concave_hull` (lines 319-355), alpha = 3.0 m, boundary
threshold 8: a point is a boundary point iff at most 8 points of the
cluster (itself included, `query_ball_point` is inclusive) lie within
distance alpha of it; requires at least 4 boundary points, takes their
convex hull and closes it.  `alpha2` is the squared radius (9 = 3.0^2). -/
def create_concave_hull (pts : List Q2) (alpha2 : ℚ) (nbrMax : ℕ) :
    Option (List Q2) :=
  if pts.length < 4 then none
  else
    let boundary := pts.filter (fun p =>
      decide (pts.countP (fun q => decide (sqDist2 p q ≤ alpha2)) ≤ nbrMax))
    if boundary.length < 4 then none
    else (convexHullPoly boundary).map closeAlways

/-- Squared `point_to_line_distance` (lines 398-415): the squared distance
from `p` to the infinite line through `a` and `b`, or to `a` itself when
the line is degenerate.  The source computes `num / sqrt(den2)` (and
`sqrt` of the point distance in the degenerate case); all its comparisons
are between nonnegative quantities, so comparing the squares is
equivalent. -/
def ptLineDistSq (p a b : Q2) : ℚ :=
  let num := (b.2 - a.2) * p.1 - (b.1 - a.1) * p.2 + b.1 * a.2 - b.2 * a.1
  let den2 := (b.2 - a.2) ^ 2 + (b.1 - a.1) ^ 2
  if den2 = 0 then (p.1 - a.1) ^ 2 + (p.2 - a.2) ^ 2
  else num ^ 2 / den2

/-- The maximum-distance scan of `dp_simplify` (lines 364-376): walk the
interior points carrying `(max_dist, index)` (as squared distances),
starting from `(0, 0)`, updating on strict increase; `i` is the index of
the head of `l` within the full vertex list. -/
def dpScan (a b : Q2) : List Q2 → ℚ × ℕ → ℕ → ℚ × ℕ
  | [], acc, _ => acc
  | p :: rest, acc, i =>
      let d := ptLineDistSq p a b
      if acc.1 < d then dpScan a b rest (d, i) (i + 1)
      else dpScan a b rest acc (i + 1)

/-- Recursive Douglas-Peucker core `dp_simplify` (lines 364-385) at the
source's only tolerance 0.5 m (squared: 1/4), with explicit fuel.  The
top-level call supplies `fuel = l.length`; every recursive call strictly
decreases both the fuel and the list length and preserves `length ≤ fuel`,
and the fuel-exhausted branch coincides with the base case on the only
lists it can then receive (`length ≤ 2`), so the fuel never alters the
computed result. -/
def dpSimplify : ℕ → List Q2 → List Q2
  | 0, l => l
  | fuel + 1, l =>
    if l.length ≤ 2 then l
    else
      let a := l.headD (0, 0)
      let b := l.getLastD (0, 0)
      let md := dpScan a b ((l.drop 1).take (l.length - 2)) (0, 0) 1
      if 1 / 4 < md.1 then
        (dpSimplify fuel (l.take (md.2 + 1))).dropLast ++ dpSimplify fuel (l.drop md.2)
      else [a, b]

/-- `simplify_polygon` (lines 357-396) at tolerance 0.5: inputs of fewer
than 4 vertices are returned unchanged; otherwise Douglas-Peucker is
applied and the result is closed. -/
def simplify_polygon (coords : List Q2) : List Q2 :=
  if coords.length < 4 then coords
  else closeRing (dpSimplify coords.length coords)

/-- `create_oriented_bbox_with_cuts` (lines 417-432): despite its name it
returns the closed convex hull of the points, or `none` when the hull
computation fails. -/
def create_oriented_bbox_with_cuts (pts : List Q2) : Option (List Q2) :=
  (convexHullPoly pts).map closeAlways

/-- Methods 2 and 3 of `create_footprint_building` (lines 280-302): the
convex hull of all cluster points, closed with the conditional append; if
the hull raises, method 3 calls `create_oriented_bbox_with_cuts`, whose
result — including `None` — is returned directly (`return bbox`, line
299).  Because `create_oriented_bbox_with_cuts` catches its own exceptions
and returns `None` instead of raising, the method-4 axis-aligned
bounding-box fallback at lines 304-314 is unreachable in the source. -/
def footprintFallback (pts : List Q2) : Option (List Q2) :=
  match convexHullPoly pts with
  | some v => some (closeRing v)
  | none => create_oriented_bbox_with_cuts pts

/-- `create_footprint_building` (lines 259-317): `None` for clusters of
fewer than 4 points; else try the concave hull (alpha 3.0, threshold 8),
simplify it and return the simplification if it still has at least 4
vertices; otherwise fall back to the convex-hull chain. -/
def create_footprint_building (pts : List Q2) : Option (List Q2) :=
  if pts.length < 4 then none
  else
    match create_concave_hull pts 9 8 with
    | some hull =>
        if 4 ≤ hull.length then
          let s := simplify_polygon hull
          if 4 ≤ s.length then some s else footprintFallback pts
        else footprintFallback pts
    | none => footprintFallback pts

/-! ## Theorems -/

theorem mastDistSq_comm (a b : MastData) : mastDistSq a b = mastDistSq b a := by
  unfold mastDistSq; ring

theorem mastFold_mem (r2 : ℚ) (l : List MastData) (acc : List MastData × ℕ) :
    ∀ x ∈ (l.foldl (mastDedupStep r2) acc).1, x ∈ acc.1 ∨ x ∈ l := by
  induction l generalizing acc with
  | nil => intro x hx; exact Or.inl hx
  | cons m t ih =>
      intro x hx
      rcases ih (mastDedupStep r2 acc m) x hx with h | h
      · unfold mastDedupStep at h
        split at h
        · exact Or.inl h
        · rcases List.mem_append.mp h with h1 | h1
          · exact Or.inl h1
          · exact Or.inr (by simp_all)
      · exact Or.inr (List.mem_cons_of_mem _ h)

theorem mastFold_pairwise (r2 : ℚ) (l : List MastData) (acc : List MastData × ℕ)
    (hacc : acc.1.Pairwise fun a b => ¬ mastDistSq a b < r2) :
    ((l.foldl (mastDedupStep r2) acc).1).Pairwise fun a b => ¬ mastDistSq a b < r2 := by
  induction l generalizing acc with
  | nil => exact hacc
  | cons m t ih =>
      apply ih
      unfold mastDedupStep
      split_ifs with hc
      · exact hacc
      · rw [List.pairwise_append]
        refine ⟨hacc, List.pairwise_singleton _ _, ?_⟩
        intro a ha b hb
        have hb2 : b = m := by simpa using hb
        subst hb2
        have hall : ∀ k ∈ acc.1, ¬ mastDistSq b k < r2 := by
          intro k hk hlt
          exact hc (List.any_eq_true.mpr ⟨k, hk, by simpa using hlt⟩)
        rw [mastDistSq_comm]
        exact hall a ha

theorem remove_duplicate_masts_subset (masts : List MastData) :
    ∀ m ∈ (remove_duplicate_masts masts).1, m ∈ masts := by
  intro m hm
  unfold remove_duplicate_masts at hm
  split_ifs at hm with h
  · exact hm
  · rcases mastFold_mem _ _ _ m hm with h1 | h1
    · simp at h1
    · simpa [List.mem_insertionSort] using h1

/-- C7 (amended): the mast deduplication keeps a subset of the input, and
every pair of kept masts has centroid distance at least (not strictly
greater than) the 1.5 m proximity radius: no kept pair lies strictly
within 1.5 m, i.e. no pair has squared distance below 9/4. -/
theorem C7_mast_dedup (masts : List MastData) :
    (∀ m ∈ (remove_duplicate_masts masts).1, m ∈ masts) ∧
    ((remove_duplicate_masts masts).1).Pairwise
      (fun a b => ¬ mastDistSq a b < 9 / 4) := by
  refine ⟨remove_duplicate_masts_subset masts, ?_⟩
  unfold remove_duplicate_masts
  split_ifs with h
  · match masts, h with
    | [], _ => exact List.Pairwise.nil
    | [a], _ => exact List.pairwise_singleton _ _
  · exact mastFold_pairwise _ _ _ List.Pairwise.nil

/-- C7 counterexample: two masts whose centroids are exactly 1.5 m apart
(squared distance exactly 9/4) are BOTH kept by `remove_duplicate_masts`,
so the kept pair is not "farther than 1.5 m" apart as the claim states: a
candidate at distance exactly equal to the radius is not rejected. -/
theorem C7_counterexample :
    (remove_duplicate_masts [⟨1, 10, 0, 0, 0⟩, ⟨2, 5, 3 / 2, 0, 0⟩]).1
        = [⟨1, 10, 0, 0, 0⟩, ⟨2, 5, 3 / 2, 0, 0⟩] ∧
    ¬ (9 / 4 < mastDistSq ⟨1, 10, 0, 0, 0⟩ ⟨2, 5, 3 / 2, 0, 0⟩) := by
  norm_num [remove_duplicate_masts, List.insertionSort, List.orderedInsert,
    byDescPoints, mastDedupStep, mastDistSq]

/-- C7 witness: the amended theorem applied to a concrete two-mast input. -/
theorem C7_mast_dedup_witness :
    (⟨1, 10, 0, 0, 0⟩ : MastData) ∈ [⟨1, 10, 0, 0, 0⟩, ⟨2, 5, 3 / 2, 0, 0⟩] :=
  (C7_mast_dedup [⟨1, 10, 0, 0, 0⟩, ⟨2, 5, 3 / 2, 0, 0⟩]).1 _
    (by norm_num [remove_duplicate_masts, List.insertionSort, List.orderedInsert,
      byDescPoints, mastDedupStep, mastDistSq])

/-- C8: the mast quality score equals the weighted sum 0.5 * point-count
validity + 0.3 * height validity + 0.2 * density validity, every factor
lies in [0,1], and any mast contained in the clean mast set produced by
`process_mast_chunk` has a score not below the 0.6 threshold. -/
theorem C8_mast_quality (minZ : ℚ) (masts : List MastData) (m : MastData) :
    calculate_mast_quality m minZ
        = (1 / 2) * factor_point_count m + (3 / 10) * factor_height m minZ
          + (1 / 5) * factor_density m minZ
    ∧ (0 ≤ factor_point_count m ∧ factor_point_count m ≤ 1)
    ∧ (0 ≤ factor_height m minZ ∧ factor_height m minZ ≤ 1)
    ∧ (0 ≤ factor_density m minZ ∧ factor_density m minZ ≤ 1)
    ∧ (m ∈ process_mast_chunk minZ masts → ¬ calculate_mast_quality m minZ < 3 / 5) := by
  refine ⟨rfl, ?_, ?_, ?_, ?_⟩
  · unfold factor_point_count; split_ifs <;> norm_num
  · unfold factor_height; split_ifs <;> norm_num
  · unfold factor_density; split_ifs <;> norm_num
  · intro hm
    unfold process_mast_chunk at hm
    have h1 := remove_duplicate_masts_subset _ _ hm
    have h2 := (List.mem_filter.mp h1).2
    unfold mastPassesFilters at h2
    simp only [Bool.and_eq_true, decide_eq_true_eq] at h2
    exact h2.2

/-- C8 witness: the theorem applied to a concrete clean mast (100 points,
10 m relative height, density 10 points per metre, quality score 1). -/
theorem C8_mast_quality_witness :
    ¬ calculate_mast_quality ⟨1, 100, 0, 0, 10⟩ 0 < 3 / 5 :=
  (C8_mast_quality 0 [⟨1, 100, 0, 0, 10⟩] ⟨1, 100, 0, 0, 10⟩).2.2.2.2 (by
    norm_num [process_mast_chunk, remove_duplicate_masts, mastPassesFilters,
      calculate_mast_quality, factor_point_count, factor_height, factor_density,
      mastRelativeHeight, mastDensity])

/-- C10: any mast whose point count lies within the configured bounds has a
quality score of at least 0.79 ( = 0.5 + 0.3*0.5 + 0.2*0.7), hence never
below the 0.6 threshold, so the poor-quality rejection branch of the mast
filter is unreachable for candidates that pass the point-count filter. -/
theorem C10_quality_bound (m : MastData) (minZ : ℚ)
    (h1 : 100 ≤ m.point_count) (h2 : m.point_count ≤ 3000) :
    79 / 100 ≤ calculate_mast_quality m minZ ∧
      ¬ calculate_mast_quality m minZ < 3 / 5 := by
  have hpc : factor_point_count m = 1 := by
    unfold factor_point_count; exact if_pos ⟨h1, h2⟩
  have hh : 1 / 2 ≤ factor_height m minZ := by
    unfold factor_height; split_ifs <;> norm_num
  have hd : 7 / 10 ≤ factor_density m minZ := by
    unfold factor_density; split_ifs <;> norm_num
  unfold calculate_mast_quality
  rw [hpc]
  constructor
  · linarith
  · intro hlt; linarith

/-- C10 witness: the bound applied to a concrete in-range mast. -/
theorem C10_quality_bound_witness :
    79 / 100 ≤ calculate_mast_quality ⟨1, 100, 0, 0, 10⟩ 0 ∧
      ¬ calculate_mast_quality ⟨1, 100, 0, 0, 10⟩ 0 < 3 / 5 :=
  C10_quality_bound ⟨1, 100, 0, 0, 10⟩ 0 (by norm_num) (by norm_num)

/-- C9 (amended): the temporary points CSV and pipeline JSON are deleted
exactly on the successful-completion exit path; every early failure exit
(external-tool failure, unparsable output, too-few-points at any stage,
zero clusters, zero accepted instances) returns without deleting them. -/
theorem C9_cleanup (e : LoaderEnv) :
    ((extract_run_effects e).tempPointsDeleted = true ∧
      (extract_run_effects e).pipelineFileDeleted = true) ↔
    (e.pdalOk = true ∧ e.parseOk = true ∧ 100 ≤ e.nPoints ∧ 20 ≤ e.nFiltered2d ∧
      500 ≤ e.nClean ∧ e.nClusters ≠ 0 ∧ e.nAccepted ≠ 0) := by
  unfold extract_run_effects
  split_ifs with h1 h2 h3 h4 h5 h6 h7 <;> simp_all

/-- C9 counterexample: on the external-tool-failure exit path the run
returns with both temporary files still present, refuting the claim that
cleanup happens on every exit path. -/
theorem C9_counterexample :
    (extract_run_effects ⟨false, true, 1000, 1000, 1000, 3, 2⟩).tempPointsDeleted = false ∧
    (extract_run_effects ⟨false, true, 1000, 1000, 1000, 3, 2⟩).pipelineFileDeleted = false := by
  decide

/-- C9 witness: the amended characterisation applied to a concrete
successful run. -/
theorem C9_cleanup_witness :
    (extract_run_effects ⟨true, true, 100, 20, 500, 1, 1⟩).tempPointsDeleted = true ∧
    (extract_run_effects ⟨true, true, 100, 20, 500, 1, 1⟩).pipelineFileDeleted = true :=
  (C9_cleanup ⟨true, true, 100, 20, 500, 1, 1⟩).mpr (by decide)

/-- C6: for a non-empty point cloud, the height filter returns exactly the
points whose Z value is strictly greater than the p-th percentile of all Z
values; points with Z equal to or below the threshold are discarded. -/
theorem C6_height_filter (p : ℚ) (pts : List Point3) (_hne : pts ≠ []) (q : Point3) :
    q ∈ heightFilter p pts ↔
      q ∈ pts ∧ percentileQ p (pts.map Point3.z) < q.z := by
  unfold heightFilter
  simp [List.mem_filter]

/-- C6 witness: the filter characterisation applied to five collinear
points with Z values 0..4 at percentile 20 (threshold 0.8). -/
theorem C6_height_filter_witness :
    (⟨0, 0, 1⟩ : Point3) ∈
      heightFilter 20 [⟨0, 0, 0⟩, ⟨0, 0, 1⟩, ⟨0, 0, 2⟩, ⟨0, 0, 3⟩, ⟨0, 0, 4⟩] := by
  refine (C6_height_filter 20 _ (by simp) ⟨0, 0, 1⟩).mpr ⟨by simp, ?_⟩
  have hfl : ⌊(4 / 5 : ℚ)⌋ = 0 := by
    rw [Int.floor_eq_iff]
    norm_num
  norm_num [percentileQ, List.insertionSort, List.orderedInsert, hfl]

theorem filterMap_map_eq {K P : Type} (l : List K) (g : K → Option P) (h : P → K)
    (H : ∀ a ∈ l, ∃ b, g a = some b ∧ h b = a) :
    (l.filterMap g).map h = l := by
  induction l with
  | nil => rfl
  | cons a t ih =>
      obtain ⟨b, hg, hb⟩ := H a (List.mem_cons_self a t)
      rw [List.filterMap_cons_some hg, List.map_cons, hb,
        ih fun x hx => H x (List.mem_cons_of_mem _ hx)]

/-- C5: the voxel downsampler keeps at most as many points as it receives;
its output carries exactly one point per occupied voxel (its voxel keys are
exactly the distinct input keys, in the sorted order `np.unique` produces);
and every surviving point is the first point of its voxel in input order
(it is what `find?` returns for its own voxel key).  Being a pure function
of the input list, it is deterministic. -/
theorem C5_voxel (v : ℚ) (pts : List Point3) :
    (voxelDownsample v pts).length ≤ pts.length ∧
    (voxelDownsample v pts).map (voxelKey v)
      = List.insertionSort keyLe ((pts.map (voxelKey v)).dedup) ∧
    ∀ q ∈ voxelDownsample v pts,
      q ∈ pts ∧ pts.find? (fun p => decide (voxelKey v p = voxelKey v q)) = some q := by
  refine ⟨?_, ?_, ?_⟩
  · have h1 : (voxelDownsample v pts).length
        ≤ (List.insertionSort keyLe ((pts.map (voxelKey v)).dedup)).length :=
      List.length_filterMap_le _ _
    have h2 : (List.insertionSort keyLe ((pts.map (voxelKey v)).dedup)).length
        = ((pts.map (voxelKey v)).dedup).length :=
      (List.perm_insertionSort keyLe _).length_eq
    have h3 : ((pts.map (voxelKey v)).dedup).length ≤ (pts.map (voxelKey v)).length :=
      (List.dedup_sublist _).length_le
    simpa [h2, List.length_map] using h1.trans (le_of_eq h2 |>.trans h3)
  · apply filterMap_map_eq
    intro k hk
    have hk3 : k ∈ pts.map (voxelKey v) :=
      List.mem_dedup.mp (by simpa [List.mem_insertionSort] using hk)
    obtain ⟨p0, hp0, hkey⟩ := List.mem_map.mp hk3
    have hsome : (pts.find? (fun p => decide (voxelKey v p = k))).isSome := by
      rw [List.find?_isSome]
      exact ⟨p0, hp0, by simpa using hkey⟩
    obtain ⟨b, hb⟩ := Option.isSome_iff_exists.mp hsome
    exact ⟨b, hb, by simpa using List.find?_some hb⟩
  · intro q hq
    obtain ⟨k, hk, hfind⟩ := List.mem_filterMap.mp hq
    have hqpts : q ∈ pts := List.mem_of_find?_eq_some hfind
    have hkey : voxelKey v q = k := by simpa using List.find?_some hfind
    subst hkey
    exact ⟨hqpts, hfind⟩

/-- C5 witness: the per-point characterisation applied to a concrete cloud
in which two points share a voxel. -/
theorem C5_voxel_witness :
    (⟨0, 0, 0⟩ : Point3) ∈ ([⟨0, 0, 0⟩, ⟨0, 0, 0⟩, ⟨2, 0, 0⟩] : List Point3) ∧
    ([⟨0, 0, 0⟩, ⟨0, 0, 0⟩, ⟨2, 0, 0⟩] : List Point3).find?
        (fun p => decide (voxelKey 1 p = voxelKey 1 ⟨0, 0, 0⟩)) = some ⟨0, 0, 0⟩ :=
  (C5_voxel 1 _).2.2 ⟨0, 0, 0⟩ (by
    norm_num [voxelDownsample, voxelKey, keyLe, List.insertionSort,
      List.orderedInsert, List.dedup_cons_of_mem, List.dedup_cons_of_not_mem,
      List.find?])

/-- C3 (amended): on degenerate input (fewer than 4 vertices) the area
function returns 0 and the compactness function returns 0 on a
non-positive perimeter, and none of the metric functions raises; but the
aspect-ratio function returns 1 — not 0 — for a vertex list with fewer
than 4 entries, and the perimeter function has no degenerate-input guard
at all: it returns 0 only for vertex lists with fewer than 2 entries
(the empty sum), and returns the nonzero sum of consecutive-vertex
distances on degenerate 2- or 3-entry lists. -/
theorem C3_metrics_degenerate (coords : List Q2) (a : ℝ) (h : coords.length < 4) :
    calculate_polygon_area coords = 0 ∧ calculate_aspect_ratio coords = 1 ∧
      calculate_compactness a 0 = 0 ∧
      (coords.length < 2 → calculate_polygon_perimeter coords = 0) := by
  refine ⟨?_, ?_, ?_, ?_⟩
  · unfold calculate_polygon_area; rw [if_pos h]
  · unfold calculate_aspect_ratio; rw [if_pos h]
  · unfold calculate_compactness; rw [if_neg (lt_irrefl 0)]
  · intro h2
    match coords, h2 with
    | [], _ => simp [calculate_polygon_perimeter]
    | [p], _ => simp [calculate_polygon_perimeter]

/-- C3 counterexample: the aspect-ratio function applied to the empty
vertex list returns 1, not 0 as the claim states; and the perimeter
function applied to the degenerate 2-entry vertex list [(0,0), (3,4)]
returns the nonzero edge length 5, not 0. -/
theorem C3_counterexample :
    calculate_aspect_ratio ([] : List Q2) = 1 ∧ (1 : ℝ) ≠ 0 ∧
    ([((0 : ℚ), (0 : ℚ)), (3, 4)] : List Q2).length < 3 ∧
    calculate_polygon_perimeter [((0 : ℚ), (0 : ℚ)), (3, 4)] = 5 ∧ (5 : ℝ) ≠ 0 := by
  refine ⟨?_, one_ne_zero, by norm_num, ?_, by norm_num⟩
  · unfold calculate_aspect_ratio; rw [if_pos (by norm_num)]
  · have h25 : ((sqDist2 ((0 : ℚ), (0 : ℚ)) (3, 4) : ℚ) : ℝ) = 25 := by
      simp [sqDist2]
      norm_num
    unfold calculate_polygon_perimeter
    simp only [List.tail_cons, List.zip_cons_cons, List.zip_nil_right,
      List.map_cons, List.map_nil, List.sum_cons, List.sum_nil, add_zero]
    rw [h25, show (25 : ℝ) = 5 ^ 2 by norm_num, Real.sqrt_sq (by norm_num)]

/-- C3 witness: the degenerate-input behaviour at the empty list. -/
theorem C3_metrics_degenerate_witness :
    calculate_polygon_area ([] : List Q2) = 0 ∧
      calculate_aspect_ratio ([] : List Q2) = 1 ∧
      calculate_compactness 5 0 = 0 ∧
      (([] : List Q2).length < 2 → calculate_polygon_perimeter ([] : List Q2) = 0) :=
  C3_metrics_degenerate [] 5 (by norm_num)

theorem centerDistSq_comm (a b : List Q2) : centerDistSq a b = centerDistSq b a := by
  unfold centerDistSq sqDist2 bbCenter; ring

theorem bboxDisjoint_eq_true (a b : List Q2) :
    bboxDisjoint a b = true ↔
      (bbMaxX a < bbMinX b ∨ bbMaxX b < bbMinX a ∨
        bbMaxY a < bbMinY b ∨ bbMaxY b < bbMinY a) := by
  unfold bboxDisjoint
  simp [or_assoc]

theorem bboxDisjoint_symm_false {a c : List Q2} (h : bboxDisjoint a c = false) :
    bboxDisjoint c a = false := by
  rcases Bool.eq_false_or_eq_true (bboxDisjoint c a) with hb | hb
  · exfalso
    have hp := (bboxDisjoint_eq_true c a).mp hb
    have hac : bboxDisjoint a c = true := (bboxDisjoint_eq_true a c).mpr (by tauto)
    simp [hac] at h
  · exact hb

theorem overlapFold_mem (l : List (List Q2)) (acc : List (List Q2)) :
    ∀ x ∈ l.foldl overlapStep acc, x ∈ acc ∨ x ∈ l := by
  induction l generalizing acc with
  | nil => intro x hx; exact Or.inl hx
  | cons c t ih =>
      intro x hx
      rcases ih (overlapStep acc c) x hx with h | h
      · unfold overlapStep at h
        split at h
        · exact Or.inl h
        · rcases List.mem_append.mp h with h1 | h1
          · exact Or.inl h1
          · exact Or.inr (by simp_all)
      · exact Or.inr (List.mem_cons_of_mem _ h)

theorem overlapFold_pairwise (l : List (List Q2)) (acc : List (List Q2))
    (hacc : acc.Pairwise fun a b => bboxDisjoint a b = false → ¬ centerDistSq a b < 64) :
    (l.foldl overlapStep acc).Pairwise
      (fun a b => bboxDisjoint a b = false → ¬ centerDistSq a b < 64) := by
  induction l generalizing acc with
  | nil => exact hacc
  | cons c t ih =>
      apply ih
      unfold overlapStep
      split_ifs with hc
      · exact hacc
      · rw [List.pairwise_append]
        refine ⟨hacc, List.pairwise_singleton _ _, ?_⟩
        intro x hx b hb
        have hb2 : b = c := by simpa using hb
        subst hb2
        intro hdisj hlt
        have hall : ∀ y ∈ acc, bboxDisjoint b y = false → 64 ≤ centerDistSq b y := by
          simpa [has_overlap_with_existing] using hc
        have h64 := hall x hx (bboxDisjoint_symm_false hdisj)
        rw [centerDistSq_comm] at hlt
        exact absurd hlt (not_lt.mpr h64)

/-- C1 (amended): the greedy overlap filter keeps a subset of its
candidates, and the 8 m bounding-box-centre separation is guaranteed only
for pairs of accepted instances whose bounding boxes overlap: for any two
accepted polygons whose boxes are not disjoint, the squared centre
distance is at least 64 = 8^2.  (Pairs with disjoint bounding boxes skip
the distance check entirely in `has_overlap_with_existing`.) -/
theorem C1_overlap_filter (cands : List (List Q2)) :
    (∀ c ∈ buildingOverlapFilter cands, c ∈ cands) ∧
    (buildingOverlapFilter cands).Pairwise
      (fun a b => bboxDisjoint a b = false → ¬ centerDistSq a b < 64) := by
  constructor
  · intro c hc
    rcases overlapFold_mem cands [] c hc with h | h
    · simp at h
    · exact h
  · exact overlapFold_pairwise cands [] List.Pairwise.nil

/-- C1 counterexample: a thin 1 x 10 m polygon and a second thin polygon
shifted 2 m east and 3 m north have disjoint bounding boxes, so the
overlap check never compares their centres: both are accepted although
their bounding-box centres are only sqrt 13 < 8 metres apart (squared
distance 13 < 64), refuting the claimed pairwise 8 m guarantee and the
claim that such a candidate is rejected. -/
theorem C1_counterexample :
    buildingOverlapFilter
        [[((0 : ℚ), (0 : ℚ)), (1, 0), (1, 10), (0, 10), (0, 0)],
          [(2, 3), (3, 3), (3, 13), (2, 13), (2, 3)]]
      = [[((0 : ℚ), (0 : ℚ)), (1, 0), (1, 10), (0, 10), (0, 0)],
          [(2, 3), (3, 3), (3, 13), (2, 13), (2, 3)]] ∧
    centerDistSq [((0 : ℚ), (0 : ℚ)), (1, 0), (1, 10), (0, 10), (0, 0)]
        [(2, 3), (3, 3), (3, 13), (2, 13), (2, 3)] < 64 := by
  norm_num [buildingOverlapFilter, overlapStep, has_overlap_with_existing,
    bboxDisjoint, bbMinX, bbMaxX, bbMinY, bbMaxY, centerDistSq, bbCenter,
    sqDist2, min_def, max_def]

/-- C1 witness: the amended theorem applied to the two-candidate input of
the counterexample. -/
theorem C1_overlap_filter_witness :
    [((0 : ℚ), (0 : ℚ)), (1, 0), (1, 10), (0, 10), (0, 0)] ∈
      [[((0 : ℚ), (0 : ℚ)), (1, 0), (1, 10), (0, 10), (0, 0)],
        [(2, 3), (3, 3), (3, 13), (2, 13), (2, 3)]] :=
  (C1_overlap_filter
      [[((0 : ℚ), (0 : ℚ)), (1, 0), (1, 10), (0, 10), (0, 0)],
        [(2, 3), (3, 3), (3, 13), (2, 13), (2, 3)]]).1 _
    (by
      norm_num [buildingOverlapFilter, overlapStep, has_overlap_with_existing,
        bboxDisjoint, bbMinX, bbMaxX, bbMinY, bbMaxY, min_def, max_def])

/-- C4 (amended): a point survives the statistical outlier filter iff its
mean k-NN distance is STRICTLY BELOW the threshold mu + f * sigma (k and f
as instantiated by the building script, k = min(10, n-1), f = 1.2, and the
wire script, k = min(8, n-1), f = 2.5); a point whose mean distance equals
the threshold is discarded, not kept. -/
theorem C4_outlier_filter (pts : List R2) (p : R2) :
    (p ∈ buildingOutlierRemoval pts ↔
      p ∈ pts ∧ knnMeanDist pts (min 10 (pts.length - 1)) p
        < outlierThreshold pts (min 10 (pts.length - 1)) (6 / 5)) ∧
    (knnMeanDist pts (min 10 (pts.length - 1)) p
        = outlierThreshold pts (min 10 (pts.length - 1)) (6 / 5) →
      p ∉ buildingOutlierRemoval pts) ∧
    (p ∈ wireOutlierRemoval pts ↔
      p ∈ pts ∧ knnMeanDist pts (min 8 (pts.length - 1)) p
        < outlierThreshold pts (min 8 (pts.length - 1)) (5 / 2)) ∧
    (knnMeanDist pts (min 8 (pts.length - 1)) p
        = outlierThreshold pts (min 8 (pts.length - 1)) (5 / 2) →
      p ∉ wireOutlierRemoval pts) := by
  have hmem : ∀ (k : ℕ) (f : ℝ), p ∈ outlierFilterStage pts k f ↔
      p ∈ pts ∧ knnMeanDist pts k p < outlierThreshold pts k f := by
    intro k f
    unfold outlierFilterStage
    simp [List.mem_filter]
  unfold buildingOutlierRemoval wireOutlierRemoval
  refine ⟨hmem _ _, ?_, hmem _ _, ?_⟩
  · intro he hmem2
    have hlt := ((hmem _ _).mp hmem2).2
    rw [he] at hlt
    exact lt_irrefl _ hlt
  · intro he hmem2
    have hlt := ((hmem _ _).mp hmem2).2
    rw [he] at hlt
    exact lt_irrefl _ hlt

theorem sorted_le_replicate (n : ℕ) (x : ℝ) :
    List.Sorted (· ≤ ·) (List.replicate n x) := by
  induction n with
  | zero => simp
  | succ m ih =>
      rw [List.replicate_succ, List.sorted_cons]
      exact ⟨fun b hb => le_of_eq (List.eq_of_mem_replicate hb).symm, ih⟩

theorem insertionSort_replicate (n : ℕ) (x : ℝ) :
    List.insertionSort (· ≤ ·) (List.replicate n x) = List.replicate n x :=
  (sorted_le_replicate n x).insertionSort_eq

theorem distR_self (p : R2) : distR p p = 0 := by
  simp [distR]

theorem meanR_replicate_zero (n : ℕ) : meanR (List.replicate n (0 : ℝ)) = 0 := by
  simp [meanR, List.sum_replicate]

theorem knnMeanDist_replicate (n k : ℕ) :
    knnMeanDist (List.replicate n ((0 : ℝ), (0 : ℝ))) k ((0 : ℝ), (0 : ℝ)) = 0 := by
  unfold knnMeanDist
  rw [List.map_replicate, distR_self, insertionSort_replicate,
    List.drop_replicate, List.take_replicate]
  exact meanR_replicate_zero _

theorem outlierThreshold_replicate (n k : ℕ) (f : ℝ) :
    outlierThreshold (List.replicate n ((0 : ℝ), (0 : ℝ))) k f = 0 := by
  unfold outlierThreshold stdR
  rw [List.map_replicate, knnMeanDist_replicate, meanR_replicate_zero,
    List.map_replicate]
  norm_num [meanR_replicate_zero, Real.sqrt_zero]

/-- C4 counterexample: for twenty coincident points every mean k-NN
distance is 0 and the threshold mu + 1.2 * sigma is also 0, so no point's
mean distance EXCEEDS the threshold — by the claim all twenty points
should be kept — yet the filter discards every point, because the code
keeps only points strictly below the threshold. -/
theorem C4_counterexample :
    buildingOutlierRemoval (List.replicate 20 ((0 : ℝ), (0 : ℝ))) = [] ∧
    ((0 : ℝ), (0 : ℝ)) ∈ List.replicate 20 ((0 : ℝ), (0 : ℝ)) ∧
    ¬ (outlierThreshold (List.replicate 20 ((0 : ℝ), (0 : ℝ))) (min 10 (20 - 1)) (6 / 5)
        < knnMeanDist (List.replicate 20 ((0 : ℝ), (0 : ℝ))) (min 10 (20 - 1))
            ((0 : ℝ), (0 : ℝ))) := by
  refine ⟨?_, by simp, ?_⟩
  · unfold buildingOutlierRemoval outlierFilterStage
    rw [List.filter_eq_nil_iff]
    intro a ha
    have ha2 := List.eq_of_mem_replicate ha
    subst ha2
    simp only [decide_eq_true_eq, List.length_replicate]
    rw [knnMeanDist_replicate, outlierThreshold_replicate]
    exact lt_irrefl 0
  · rw [knnMeanDist_replicate, outlierThreshold_replicate]
    exact lt_irrefl 0

/-- C4 witness: the equality-is-discarded clause applied to a concrete
one-point cloud, where the single point's mean distance and the threshold
are both 0 and the point is removed. -/
theorem C4_outlier_filter_witness :
    ((0 : ℝ), (0 : ℝ)) ∉ buildingOutlierRemoval [((0 : ℝ), (0 : ℝ))] :=
  (C4_outlier_filter [((0 : ℝ), (0 : ℝ))] ((0 : ℝ), (0 : ℝ))).2.1 (by
    rw [← List.replicate_one (a := ((0 : ℝ), (0 : ℝ)))]
    rw [knnMeanDist_replicate, outlierThreshold_replicate])

theorem popChain_sublist (p : Q2) (l : List Q2) : popChain p l <+ l := by
  induction l with
  | nil => simp [popChain]
  | cons b t ih =>
      cases t with
      | nil => simp [popChain]
      | cons a rest =>
          simp only [popChain]
          split_ifs with hc
          · exact ih.trans (List.sublist_cons_self _ _)
          · exact List.Sublist.refl _

theorem popChain_ne_nil (p : Q2) (l : List Q2) (h : l ≠ []) : popChain p l ≠ [] := by
  induction l with
  | nil => exact absurd rfl h
  | cons b t ih =>
      cases t with
      | nil => simp [popChain]
      | cons a rest =>
          simp only [popChain]
          split_ifs with hc
          · exact ih (by simp)
          · simp

theorem popChain_getLast? (p : Q2) (l : List Q2) (h : l ≠ []) :
    (popChain p l).getLast? = l.getLast? := by
  induction l with
  | nil => exact absurd rfl h
  | cons b t ih =>
      cases t with
      | nil => simp [popChain]
      | cons a rest =>
          simp only [popChain]
          split_ifs with hc
          · rw [ih (by simp), List.getLast?_cons_cons]
          · rfl

theorem chainAux_sublist (l : List Q2) :
    ∀ acc : List Q2, chainAux acc l <+ l.reverse ++ acc := by
  induction l with
  | nil => intro acc; simp [chainAux]
  | cons p rest ih =>
      intro acc
      have h1 := ih (p :: popChain p acc)
      have h2 : (p :: popChain p acc) <+ (p :: acc) :=
        List.Sublist.cons₂ _ (popChain_sublist p acc)
      calc chainAux acc (p :: rest)
          = chainAux (p :: popChain p acc) rest := rfl
        _ <+ rest.reverse ++ (p :: popChain p acc) := h1
        _ <+ rest.reverse ++ (p :: acc) := List.Sublist.append (List.Sublist.refl _) h2
        _ = (p :: rest).reverse ++ acc := by simp

theorem chainAux_getLast? (l : List Q2) :
    ∀ acc : List Q2, acc ≠ [] → (chainAux acc l).getLast? = acc.getLast? := by
  induction l with
  | nil => intro acc _; rfl
  | cons p rest ih =>
      intro acc h
      show (chainAux (p :: popChain p acc) rest).getLast? = acc.getLast?
      rw [ih _ (by simp)]
      have hpc := popChain_ne_nil p acc h
      cases hpp : popChain p acc with
      | nil => exact absurd hpp hpc
      | cons x xs =>
          rw [List.getLast?_cons_cons, ← hpp, popChain_getLast? p acc h]

theorem chainAux_nil_getLast? (l : List Q2) (h : l ≠ []) :
    (chainAux [] l).getLast? = l.head? := by
  cases l with
  | nil => exact absurd rfl h
  | cons p rest =>
      have hstep : chainAux [] (p :: rest) = chainAux [p] rest := by
        simp [chainAux, popChain]
      rw [hstep, chainAux_getLast? rest [p] (by simp)]
      rfl

theorem chainAux_head? (l : List Q2) :
    ∀ acc : List Q2, l ≠ [] → (chainAux acc l).head? = l.getLast? := by
  induction l with
  | nil => intro acc h; exact absurd rfl h
  | cons p rest ih =>
      intro acc _
      cases rest with
      | nil => simp [chainAux]
      | cons q rest2 =>
          show (chainAux (p :: popChain p acc) (q :: rest2)).head? = _
          rw [List.getLast?_cons_cons]
          exact ih _ (by simp)

theorem buildChain_sublist (l : List Q2) : buildChain l <+ l := by
  have h := chainAux_sublist l []
  rw [List.append_nil] at h
  have h2 := h.reverse
  rwa [List.reverse_reverse] at h2

theorem buildChain_head? (l : List Q2) (h : l ≠ []) :
    (buildChain l).head? = l.head? := by
  unfold buildChain
  rw [List.head?_reverse]
  exact chainAux_nil_getLast? l h

theorem buildChain_getLast? (l : List Q2) (h : l ≠ []) :
    (buildChain l).getLast? = l.getLast? := by
  unfold buildChain
  rw [List.getLast?_reverse]
  exact chainAux_head? l [] h

theorem head?_dropLast_of_two_le {l : List Q2} (h : 2 ≤ l.length) :
    l.dropLast.head? = l.head? := by
  match l, h with
  | a :: b :: t, _ => simp

theorem ne_head_getLast_of_nodup {l : List Q2} (hn : l.Nodup) (h : 2 ≤ l.length) :
    l.head? ≠ l.getLast? := by
  match l, h with
  | a :: b :: t, _ =>
      intro he
      have hgl : (a :: b :: t).getLast? = some ((b :: t).getLast (by simp)) := by
        rw [List.getLast?_cons_cons, List.getLast?_eq_getLast_of_ne_nil]
      rw [hgl] at he
      simp only [List.head?_cons, Option.some.injEq] at he
      have hmem : (b :: t).getLast (by simp) ∈ b :: t := List.getLast_mem _
      rw [← he] at hmem
      exact (List.nodup_cons.mp hn).1 hmem

theorem notMem_dropLast_of_getLast? {l : List Q2} {x : Q2} (hn : l.Nodup)
    (hx : l.getLast? = some x) : x ∉ l.dropLast := by
  intro hmem
  have hne : l ≠ [] := by rintro rfl; simp at hx
  have hdecomp := List.dropLast_append_getLast hne
  have hxl : l.getLast hne = x := by
    rw [List.getLast?_eq_getLast_of_ne_nil hne] at hx
    exact Option.some.inj hx
  rw [← hdecomp] at hn
  rcases List.nodup_append.mp hn with ⟨_, _, hdisj⟩
  exact hdisj hmem (by simp [hxl])

theorem hullOf_spec (s : List Q2) (hnodup : s.Nodup)
    (hlen : 3 ≤ ((buildChain s).dropLast ++ (buildChain s.reverse).dropLast).length) :
    ((buildChain s).dropLast ++ (buildChain s.reverse).dropLast).head?
      ≠ ((buildChain s).dropLast ++ (buildChain s.reverse).dropLast).getLast? := by
  have hs2 : 2 ≤ s.length := by
    rcases s with _ | ⟨a, _ | ⟨b, t⟩⟩
    · simp [buildChain, chainAux] at hlen
    · simp [buildChain, chainAux, popChain] at hlen
    · simp
  have hne : s ≠ [] := by rintro rfl; simp at hs2
  have hrevne : s.reverse ≠ [] := by simpa using hne
  obtain ⟨a, ha⟩ : ∃ a, s.head? = some a := by
    cases s with
    | nil => exact absurd rfl hne
    | cons x t => exact ⟨x, rfl⟩
  have hlhead : (buildChain s).head? = s.head? := buildChain_head? s hne
  have hllast : (buildChain s).getLast? = s.getLast? := buildChain_getLast? s hne
  have hulast : (buildChain s.reverse).getLast? = s.head? := by
    rw [buildChain_getLast? _ hrevne, List.getLast?_reverse]
  have hsne : s.head? ≠ s.getLast? := ne_head_getLast_of_nodup hnodup hs2
  have hlow2 : 2 ≤ (buildChain s).length := by
    rcases hbc : buildChain s with _ | ⟨x, _ | ⟨y, ys⟩⟩
    · rw [hbc] at hlhead
      rw [ha] at hlhead
      simp at hlhead
    · exfalso
      apply hsne
      rw [← hlhead, ← hllast, hbc]
      rfl
    · simp
  have hup2 : 2 ≤ (buildChain s.reverse).length := by
    have huhead : (buildChain s.reverse).head? = s.getLast? := by
      rw [buildChain_head? _ hrevne, List.head?_reverse]
    rcases hbc : buildChain s.reverse with _ | ⟨x, _ | ⟨y, ys⟩⟩
    · rw [hbc] at hulast
      rw [ha] at hulast
      simp at hulast
    · exfalso
      apply hsne
      rw [← huhead, ← hulast, hbc]
      rfl
    · simp
  have hdl : (buildChain s).dropLast ≠ [] := by
    intro hnil
    have := congrArg List.length hnil
    simp [List.length_dropLast] at this
    omega
  have hdu : (buildChain s.reverse).dropLast ≠ [] := by
    intro hnil
    have := congrArg List.length hnil
    simp [List.length_dropLast] at this
    omega
  have hhead : ((buildChain s).dropLast ++ (buildChain s.reverse).dropLast).head? = some a := by
    rw [List.head?_append, head?_dropLast_of_two_le hlow2, hlhead, ha]
    rfl
  obtain ⟨q, hq⟩ : ∃ q, ((buildChain s.reverse).dropLast).getLast? = some q := by
    rw [List.getLast?_eq_getLast_of_ne_nil hdu]
    exact ⟨_, rfl⟩
  have hlast : ((buildChain s).dropLast ++ (buildChain s.reverse).dropLast).getLast? = some q := by
    rw [List.getLast?_append, hq]
    rfl
  have hqmem : q ∈ (buildChain s.reverse).dropLast := by
    rw [List.getLast?_eq_getLast_of_ne_nil hdu] at hq
    rw [← Option.some.inj hq]
    exact List.getLast_mem hdu
  have hupnodup : (buildChain s.reverse).Nodup :=
    List.Nodup.sublist (buildChain_sublist s.reverse) (List.nodup_reverse.mpr hnodup)
  have hanotin : a ∉ (buildChain s.reverse).dropLast :=
    notMem_dropLast_of_getLast? hupnodup (by rw [hulast, ha])
  have hqa : q ≠ a := by
    intro hqar
    rw [hqar] at hqmem
    exact hanotin hqmem
  rw [hhead, hlast]
  intro heq
  exact hqa (Option.some.inj heq).symm

theorem convexHullPoly_spec {pts v : List Q2} (h : convexHullPoly pts = some v) :
    3 ≤ v.length ∧ v.head? ≠ v.getLast? := by
  simp only [convexHullPoly] at h
  split_ifs at h with hlen
  · injection h with h2
    subst h2
    refine ⟨hlen, ?_⟩
    exact hullOf_spec _
      ((List.perm_insertionSort lexQ2 pts.dedup).nodup_iff.mpr (List.nodup_dedup pts)) hlen

theorem closeRing_nil : closeRing [] = [] := rfl

theorem closeRing_closed (l : List Q2) (h : l ≠ []) :
    (closeRing l).head? = (closeRing l).getLast? := by
  cases l with
  | nil => exact absurd rfl h
  | cons a t =>
      simp only [closeRing, List.head?_cons]
      split_ifs with hg
      · rw [List.head?_cons, hg]
      · rw [List.head?_append, List.getLast?_concat]
        rfl

theorem closeRing_append_of_ne {l : List Q2} {a : Q2} (ha : l.head? = some a)
    (hne : l.getLast? ≠ some a) : closeRing l = l ++ [a] := by
  cases l with
  | nil => simp at ha
  | cons x t =>
      have hx : x = a := by simpa using ha
      subst hx
      simp only [closeRing, List.head?_cons]
      rw [if_neg hne]

theorem footprintFallback_spec {pts poly : List Q2}
    (h : footprintFallback pts = some poly) :
    poly.head? = poly.getLast? ∧ 4 ≤ poly.length := by
  unfold footprintFallback at h
  cases hv : convexHullPoly pts with
  | none =>
      rw [hv] at h
      unfold create_oriented_bbox_with_cuts at h
      rw [hv] at h
      exact absurd h (by simp)
  | some v =>
      rw [hv] at h
      obtain ⟨hvlen, hvne⟩ := convexHullPoly_spec hv
      have hpoly : poly = closeRing v := by
        injection h with h2
        exact h2.symm
      have hvnil : v ≠ [] := by
        intro hnil
        rw [hnil] at hvlen
        simp at hvlen
      obtain ⟨a, ha⟩ : ∃ a, v.head? = some a := by
        cases v with
        | nil => exact absurd rfl hvnil
        | cons x t => exact ⟨x, rfl⟩
      have hgne : v.getLast? ≠ some a := by
        intro hg
        exact hvne (by rw [ha, hg])
      rw [hpoly, closeRing_append_of_ne ha hgne]
      constructor
      · rw [List.head?_append, ha, List.getLast?_concat]
        rfl
      · rw [List.length_append]
        simp only [List.length_singleton]
        omega

/-- C2 (amended): whenever `create_footprint_building` returns a polygon,
the cluster had at least 4 points, the polygon is explicitly closed (first
vertex equals last) and has at least 4 vertices.  The converse of the
claim fails: the builder can also return null for clusters of 4 or more
points when the convex-hull construction fails on degenerate (e.g.
collinear) clusters, so "returns null only when the cluster has fewer
than 4 points" does not hold. -/
theorem C2_footprint (pts poly : List Q2)
    (h : create_footprint_building pts = some poly) :
    4 ≤ pts.length ∧ poly.head? = poly.getLast? ∧ 4 ≤ poly.length := by
  unfold create_footprint_building at h
  split_ifs at h with hlt
  refine ⟨by omega, ?_⟩
  cases hc : create_concave_hull pts 9 8 with
  | none =>
      rw [hc] at h
      exact footprintFallback_spec h
  | some hull =>
      rw [hc] at h
      simp only [] at h
      split_ifs at h with h1 h2
      · have hpoly : poly = simplify_polygon hull := by
          injection h with hh
          exact hh.symm
        have hs : simplify_polygon hull = closeRing (dpSimplify hull.length hull) := by
          unfold simplify_polygon
          rw [if_neg (by omega)]
        constructor
        · rw [hpoly, hs]
          apply closeRing_closed
          intro hnil
          rw [hs, hnil, closeRing_nil] at h2
          simp at h2
        · rw [hpoly]
          exact h2
      · exact footprintFallback_spec h
      · exact footprintFallback_spec h

/-- C2 counterexample: a cluster of 4 distinct collinear points.  The
concave-hull attempt and both convex-hull fallbacks fail (degenerate hull),
`create_oriented_bbox_with_cuts` returns null rather than raising, and
`create_footprint_building` returns null for a cluster with at least 4
points — the axis-aligned bounding-box fallback of method 4 is dead code. -/
theorem C2_counterexample :
    create_footprint_building [((0 : ℚ), (0 : ℚ)), (1, 0), (2, 0), (3, 0)] = none ∧
    4 ≤ ([((0 : ℚ), (0 : ℚ)), (1, 0), (2, 0), (3, 0)] : List Q2).length := by
  constructor
  · norm_num [create_footprint_building, create_concave_hull, convexHullPoly,
      footprintFallback, create_oriented_bbox_with_cuts, closeAlways,
      buildChain, chainAux, popChain, cross2, lexQ2, sqDist2,
      List.insertionSort, List.orderedInsert, List.countP_cons, List.countP_nil,
      List.filter_cons, List.dedup_cons_of_mem, List.dedup_cons_of_not_mem]
  · simp

/-- C2 witness: the closure invariant applied to a concrete 4-point square
cluster, whose footprint is the simplified closed square. -/
theorem C2_footprint_witness :
    4 ≤ ([((0 : ℚ), (0 : ℚ)), (6, 0), (0, 6), (6, 6)] : List Q2).length ∧
    ([((0 : ℚ), (0 : ℚ)), (6, 0), (6, 6), (0, 6), (0, 0)] : List Q2).head?
      = ([((0 : ℚ), (0 : ℚ)), (6, 0), (6, 6), (0, 6), (0, 0)] : List Q2).getLast? ∧
    4 ≤ ([((0 : ℚ), (0 : ℚ)), (6, 0), (6, 6), (0, 6), (0, 0)] : List Q2).length :=
  C2_footprint _ _ (by
    norm_num [create_footprint_building, create_concave_hull, convexHullPoly,
      footprintFallback, create_oriented_bbox_with_cuts, closeAlways, closeRing,
      buildChain, chainAux, popChain, cross2, lexQ2, sqDist2, simplify_polygon,
      dpSimplify, dpScan, ptLineDistSq,
      List.insertionSort, List.orderedInsert, List.countP_cons, List.countP_nil,
      List.filter_cons, List.dedup_cons_of_mem, List.dedup_cons_of_not_mem])
